import Mathlib

/-!
Verification of the completion-panel prompt widget (`completebox.py`).

The file shallowly embeds the pure core of the widget: the query splitter
`_split_completion_query`, the candidate filtering of
`_PanelPromptSession.filter_items`, the truncation helper `_truncate`, the
panel renderer `render_panel` / `render_content`, the key handlers of
`_PanelPromptSession.run` (as a step function on session states), and the
error handling of `bash_completer`.

Conventions of the embedding:
* Python strings are Lean `String`s viewed as their lists of characters;
  `str.strip` / `str.lower` are modelled over the ASCII ranges the widget
  actually handles (its input charset is ASCII).
* Python `int` fields (the selection index) are Lean `Int`.
* The external subprocess (`subprocess.run`) and a user-supplied completer
  are external collaborators; they are modelled as abstract functions into
  `Except Unit`, the `.error` case standing for a raised exception
  (`FileNotFoundError` for the subprocess launch).
* List indexing `filtered_items[selected_index]` (which would raise
  `IndexError` out of range in Python) is modelled totally with
  `List.getD`; the in-bounds property is proved separately for every
  reachable state, so the total model agrees with the partial original.
-/

/-- Python `str.isspace` over the ASCII whitespace characters
(`str.strip()` with no argument strips exactly these in the ASCII range). -/
def pyIsSpace (c : Char) : Bool :=
  c == ' ' || c == '\t' || c == '\n' || c == '\x0b' || c == '\x0c' || c == '\r'

/-- Python `str.strip()`: drop leading and trailing whitespace. -/
def pyStrip (s : String) : String :=
  String.mk (((s.data.dropWhile pyIsSpace).reverse.dropWhile pyIsSpace).reverse)

/-- Python `str.lower` on one character (ASCII range). -/
def pyLowerChar (c : Char) : Char :=
  if 'A' ≤ c ∧ c ≤ 'Z' then Char.ofNat (c.toNat + 32) else c

/-- Python `str.lower` (ASCII range). -/
def pyLower (s : String) : String :=
  String.mk (s.data.map pyLowerChar)

/-- Does `needle` occur at the very start of `hay`? (helper for Python `in`). -/
def matchesAt : List Char → List Char → Bool
  | [], _ => true
  | _ :: _, [] => false
  | a :: as, b :: bs => a == b && matchesAt as bs

/-- Does `needle` occur anywhere in `hay`? (helper for Python `in`). -/
def findSub (needle : List Char) : List Char → Bool
  | [] => matchesAt needle []
  | b :: bs => matchesAt needle (b :: bs) || findSub needle bs

/-- Python substring test `needle in hay` on strings. -/
def strContains (hay needle : String) : Bool :=
  findSub needle.data hay.data

/-- Python `str.splitlines` restricted to the newline character
(the only line break the widget's data can contain). -/
def splitlinesAux : List Char → List Char → List (List Char)
  | [], acc => if acc.isEmpty then [] else [acc.reverse]
  | c :: rest, acc =>
      if c == '\n' then acc.reverse :: splitlinesAux rest []
      else splitlinesAux rest (c :: acc)

/-- Python `str.splitlines` on strings. -/
def pySplitlines (s : String) : List String :=
  (splitlinesAux s.data []).map String.mk

/-- `_split_completion_query` helper: Python `text.rpartition(" ")`,
returning `some (head, tail)` when a space occurs (split at the last one)
and `none` when no space occurs. -/
def rpartitionSpace : List Char → Option (List Char × List Char)
  | [] => none
  | c :: cs =>
      match rpartitionSpace cs with
      | some (h, t) => some (c :: h, t)
      | none => if c == ' ' then some ([], cs) else none

/-- `_split_completion_query(text)` (completebox.py lines 40-48): split the
buffer into the lead kept verbatim and the trailing fragment to complete. -/
def splitCompletionQuery (text : String) : String × String :=
  if text = "" then ("", "")
  else if text.data.getLast? = some ' ' then (text, "")
  else
    match rpartitionSpace text.data with
    | some (h, t) => (String.mk (h ++ [' ']), String.mk t)
    | none => ("", text)

/-- `_PanelPromptSession._truncate(text, width)` (completebox.py lines
116-124). `width` is a Python `int`, hence `Int`. -/
def pyTruncate (text : String) (width : Int) : String :=
  if width ≤ 0 then ""
  else if (text.length : Int) ≤ width then text
  else if width = 1 then "…"
  else String.mk (text.data.take (width.toNat - 1)) ++ "…"

/-- Result of `subprocess.run` as consumed by `bash_completer`: the exit
status and captured standard output. -/
structure CompletedProcess where
  returncode : Int
  stdout : String

/-- First-seen-order deduplication: the `seen` set / `completions` loop of
`bash_completer` (completebox.py lines 64-70). -/
def dedupAux (seen : List String) : List String → List String
  | [] => []
  | c :: cs => if c ∈ seen then dedupAux seen cs else c :: dedupAux (c :: seen) cs

/-- `bash_completer(query)` (completebox.py lines 51-71).  The subprocess
invocation `subprocess.run(["bash", "-ic", "compgen -cdfa -- <fragment>"],
check=False)` is an external collaborator, modelled as the abstract
function `run` from the fragment to a process result; `.error` stands for
the `FileNotFoundError` the code catches on launch failure.  The exit
status is carried in the result but — exactly as in the code, which passes
`check=False` and never reads `returncode` — it is not inspected. -/
def bashCompleter (run : String → Except Unit CompletedProcess) (query : String) : List String :=
  match run (splitCompletionQuery query).2 with
  | .error _ => []
  | .ok result =>
      dedupAux []
        (((pySplitlines result.stdout).filter (fun line => line != "")).map
          (fun c => (splitCompletionQuery query).1 ++ c))

/-- The candidate source configured at session construction: either the
static choice list (the constructor stores `list(choices)` or `None`) or a
user-supplied completer function.  `filter_items` consults the completer
first when present (`elif self.completer is not None`), so the two cases
are mutually exclusive per recomputation, which this sum type captures.
A completer returning `.error` models a raised exception, caught by the
`try/except Exception` of `filter_items`. -/
inductive CandidateSource where
  | staticChoices (choices : Option (List String))
  | externalCompleter (f : String → Except Unit (List String))

/-- The candidate list computed by `_PanelPromptSession.filter_items`
(completebox.py lines 98-113) for a given source and buffer, before the
selection clamp. -/
def computeFiltered (src : CandidateSource) (query : String) : List String :=
  if pyStrip query = "" then []
  else
    match src with
    | .externalCompleter f =>
        match f query with
        | .error _ => []
        | .ok completions => completions.filter (fun c => c != "")
    | .staticChoices choices =>
        (choices.getD []).filter (fun item => strContains (pyLower item) (pyLower query))

/-- The mutable state of one `_PanelPromptSession` (completebox.py lines
83-94): prompt text, immutable candidate-source and `max_rows`
configuration, the edit buffer, the filtered list, and the selection
index (a Python `int`).  `panel_width` / `panel_inner_width` are the
constants 46 / 42. -/
structure Session where
  promptText : String
  source : CandidateSource
  maxRows : Nat
  inputText : String
  filteredItems : List String
  selectedIndex : Int

/-- `self.panel_width = 46`. -/
def panelWidth : Nat := 46

/-- `self.panel_inner_width = self.panel_width - 4`. -/
def panelInnerWidth : Nat := panelWidth - 4

/-- `filter_items` as a state transformer: recompute the filtered list and
clamp the selection
(`self.selected_index = min(self.selected_index, max(len(self.filtered_items) - 1, 0))`,
completebox.py line 114). -/
def filterItems (s : Session) : Session :=
  let items := computeFiltered s.source s.inputText
  { s with
    filteredItems := items
    selectedIndex := min s.selectedIndex (max ((items.length : Int) - 1) 0) }

/-- `_PanelPromptSession._accept_selection` (completebox.py lines 187-189).
The Python indexing `filtered_items[selected_index]` is modelled with
`getD`; in-bounds-ness over reachable states is proved below. -/
def acceptSelection (s : Session) : Session :=
  if s.filteredItems ≠ [] then
    { s with inputText := s.filteredItems.getD s.selectedIndex.toNat "" }
  else s

/-- One key event handled by the bindings of `_PanelPromptSession.run`
(completebox.py lines 194-241): printable-character append, backspace,
`escape`/`c-u` clear, up, down, tab, and a bare recomputation. -/
inductive Op where
  | appendChar (c : Char)
  | backspace
  | clearBuffer
  | moveUp
  | moveDown
  | tabAccept
  | recompute

/-- The effect of one key event on the session state, transcribed from the
key-binding closures of `run`. -/
def applyOp (s : Session) : Op → Session
  | .appendChar c => filterItems { s with inputText := s.inputText.push c }
  | .backspace =>
      if s.inputText = "" then s
      else filterItems { s with inputText := String.mk s.inputText.data.dropLast }
  | .clearBuffer => filterItems { s with inputText := "" }
  | .moveUp =>
      if s.filteredItems ≠ [] ∧ 0 < s.selectedIndex then
        { s with selectedIndex := s.selectedIndex - 1 }
      else s
  | .moveDown =>
      if s.filteredItems ≠ [] ∧ s.selectedIndex < (s.filteredItems.length : Int) - 1 then
        { s with selectedIndex := s.selectedIndex + 1 }
      else s
  | .tabAccept =>
      if s.filteredItems ≠ [] then filterItems (acceptSelection s) else s
  | .recompute => filterItems s

/-- The state a session starts in: the constructor sets
`input_text = ""`, `filtered_items = []`, `selected_index = 0` and then
calls `self.filter_items()` (completebox.py lines 92-96). -/
def initSession (p : String) (src : CandidateSource) (mr : Nat) : Session :=
  filterItems
    { promptText := p, source := src, maxRows := mr
      inputText := "", filteredItems := [], selectedIndex := 0 }

/-- The session states reachable from construction by any sequence of key
events. -/
inductive Reachable (p : String) (src : CandidateSource) (mr : Nat) : Session → Prop where
  | init : Reachable p src mr (initSession p src mr)
  | step (s : Session) (op : Op) :
      Reachable p src mr s → Reachable p src mr (applyOp s op)

/-- The result of the `enter` binding (completebox.py lines 210-215):
`text = self.input_text; if not text and self.filtered_items:
text = self.filtered_items[self.selected_index]; event.app.exit(result=text)`. -/
def enterResult (s : Session) : String :=
  if s.inputText = "" ∧ s.filteredItems ≠ [] then
    s.filteredItems.getD s.selectedIndex.toNat ""
  else s.inputText

/-- How a session terminates: `app.exit(result=...)` on enter, or
`app.exit(exception=KeyboardInterrupt)` on `c-c`. -/
inductive Outcome where
  | accepted (value : String)
  | cancelled

/-- Pressing enter ends the session accepted with `enterResult`. -/
def enterOutcome (s : Session) : Outcome :=
  .accepted (enterResult s)

/-- Python `text.ljust(width)` with space padding. -/
def pyLjust (text : String) (width : Nat) : String :=
  if width ≤ text.length then text
  else text ++ String.mk (List.replicate (width - text.length) ' ')

/-- Python `s.center(width, fill)`, following CPython's placement of the
extra fill character (`left = marg / 2 + (marg & width & 1)`). -/
def pyCenter (s : List Char) (width : Nat) (fill : Char) : List Char :=
  if width ≤ s.length then s
  else
    let marg := width - s.length
    let left := marg / 2 + (marg &&& width &&& 1)
    List.replicate left fill ++ s ++ List.replicate (marg - left) fill

/-- One styled fragment of prompt-toolkit `FormattedText`: (style class, text). -/
abbrev Frag := String × String

/-- `_panel_header(title)` (completebox.py lines 126-130), as the fragments
of the one display line it emits. -/
def panelHeaderLine (title : String) : List Frag :=
  [("class:panel-border",
    "┌" ++ String.mk (pyCenter (" " ++ title ++ " ").data (panelWidth - 2) '─') ++ "┐\n")]

/-- `_panel_footer()` (completebox.py lines 132-134). -/
def panelFooterLine : List Frag :=
  [("class:panel-border", "└" ++ String.mk (List.replicate (panelWidth - 2) '─') ++ "┘\n")]

/-- `_panel_row(text, style)` (completebox.py lines 136-142). -/
def panelRowLine (text : String) (style : String) : List Frag :=
  [("class:panel-border", "│ "),
   (style, pyLjust text panelInnerWidth),
   ("class:panel-border", " │\n")]

/-- `render_panel()` (completebox.py lines 144-172).  The code appends the
fragments of one display line per `extend` call (each group's text ends in
exactly one `"\n"`); the embedding keeps that line structure, so that a
display line of the panel is one element of the returned list. -/
def renderPanel (s : Session) : List (List Frag) :=
  if s.filteredItems = [] then
    panelHeaderLine "No results"
      :: panelRowLine (pyTruncate "Tidak ada hasil" (panelInnerWidth : Int)) "class:no-results"
      :: (List.replicate (s.maxRows - 1) (panelRowLine "" "class:panel-placeholder")
          ++ [panelFooterLine])
  else
    panelHeaderLine "Suggestions"
      :: ((List.range s.maxRows).map (fun idx =>
            let suggestions := s.filteredItems.take s.maxRows
            if hlt : idx < suggestions.length then
              let item := suggestions.get ⟨idx, hlt⟩
              let pre := if (idx : Int) = s.selectedIndex then "› " else "  "
              panelRowLine
                (pre ++ pyTruncate item ((panelInnerWidth : Int) - (pre.length : Int)))
                (if (idx : Int) = s.selectedIndex then "class:selected-line"
                 else "class:panel-line")
            else panelRowLine "" "class:panel-placeholder")
          ++ [panelFooterLine])

/-- `render_content()` (completebox.py lines 174-185): prompt and buffer
fragments, the panel block only when `self.input_text` is truthy (i.e.
non-empty), then the footer hint. -/
def renderContent (s : Session) : List Frag :=
  [("class:prompt", s.promptText), ("class:input", s.inputText)]
    ++ (if s.inputText = "" then []
        else ("", "\n\n") :: ((renderPanel s).flatten ++ [("", "\n")]))
    ++ [("class:footer", "Tab: isi dari pilihan | Ctrl+C: batal")]

/-- The selection-index invariant in clamp form: the index is non-negative
and at most `max (len - 1) 0`. -/
def SelInv (s : Session) : Prop :=
  0 ≤ s.selectedIndex ∧
  s.selectedIndex ≤ max ((s.filteredItems.length : Int) - 1) 0

/-- The default demo choice list restricted to the two entries the spec's
test uses, plus sample states used as concrete witnesses. -/
def sampleChoices : List String := ["com.whatsapp", "com.spotify.music"]

/-- A concrete static-list candidate source. -/
def sampleSource : CandidateSource := .staticChoices (some sampleChoices)

/-- A freshly constructed session over `sampleSource`. -/
def sampleInit : Session := initSession "> " sampleSource 6

/-- `sampleInit` after typing one character. -/
def sampleStep : Session := applyOp sampleInit (Op.appendChar 's')

/-- A reachable state with non-empty buffer configured with `max_rows = 0`. -/
def c2ZeroRowsState : Session :=
  applyOp (initSession "> " (CandidateSource.staticChoices (some ["a"])) 0) (Op.appendChar 'x')

/-- A reachable state whose buffer is the single space character (the
space key is among the printable bindings of `run`). -/
def whitespaceState : Session :=
  applyOp (initSession "> " (CandidateSource.staticChoices (some ["a"])) 6) (Op.appendChar ' ')

/-- A session state in which `"com.spotify.music"` is highlighted: the
state reached from the sample session by typing `"spot"`. -/
def tabSession : Session :=
  { promptText := "> ", source := CandidateSource.staticChoices (some sampleChoices),
    maxRows := 6, inputText := "spot", filteredItems := ["com.spotify.music"],
    selectedIndex := 0 }

/-- The tab press from the reachable state over choices `["a", "aa"]` with
buffer `"a"` and `"a"` highlighted. -/
def tabAmbiguous : Session :=
  applyOp (applyOp (initSession "> " (CandidateSource.staticChoices (some ["a", "aa"])) 6)
    (Op.appendChar 'a')) Op.tabAccept

theorem selInv_filterItems (s : Session) (h : 0 ≤ s.selectedIndex) :
    SelInv (filterItems s) := by
  refine ⟨le_min h (le_max_right _ _), ?_⟩
  exact min_le_right _ _

theorem acceptSelection_selectedIndex (s : Session) :
    (acceptSelection s).selectedIndex = s.selectedIndex := by
  unfold acceptSelection; split <;> rfl

theorem acceptSelection_source (s : Session) :
    (acceptSelection s).source = s.source := by
  unfold acceptSelection; split <;> rfl

theorem selInv_applyOp (s : Session) (op : Op) (h : SelInv s) : SelInv (applyOp s op) := by
  obtain ⟨h0, h1⟩ := h
  cases op with
  | appendChar c => exact selInv_filterItems _ h0
  | backspace =>
      by_cases hb : s.inputText = ""
      · simpa [applyOp, hb] using ⟨h0, h1⟩
      · simp only [applyOp, if_neg hb]
        exact selInv_filterItems _ h0
  | clearBuffer => exact selInv_filterItems _ h0
  | moveUp =>
      by_cases hc : s.filteredItems ≠ [] ∧ 0 < s.selectedIndex
      · simp only [applyOp, if_pos hc]
        unfold SelInv
        dsimp only
        exact ⟨by omega, by have := hc.2; omega⟩
      · simpa [applyOp, hc] using ⟨h0, h1⟩
  | moveDown =>
      by_cases hc : s.filteredItems ≠ [] ∧ s.selectedIndex < (s.filteredItems.length : Int) - 1
      · simp only [applyOp, if_pos hc]
        unfold SelInv
        dsimp only
        refine ⟨by omega, ?_⟩
        have hm := le_max_left ((s.filteredItems.length : Int) - 1) (0 : Int)
        have := hc.2
        omega
      · simpa [applyOp, hc] using ⟨h0, h1⟩
  | tabAccept =>
      by_cases hc : s.filteredItems ≠ []
      · simp only [applyOp, if_pos hc]
        refine selInv_filterItems _ ?_
        rw [acceptSelection_selectedIndex]; exact h0
      · simpa [applyOp, hc] using ⟨h0, h1⟩
  | recompute => exact selInv_filterItems _ h0

theorem selInv_reachable {p : String} {src : CandidateSource} {mr : Nat} {s : Session}
    (h : Reachable p src mr s) : SelInv s := by
  induction h with
  | init => exact selInv_filterItems _ (le_refl 0)
  | step s op _ ih => exact selInv_applyOp s op ih

theorem selInv_bounds {s : Session} (h : SelInv s) :
    (s.filteredItems ≠ [] →
      0 ≤ s.selectedIndex ∧ s.selectedIndex < (s.filteredItems.length : Int)) ∧
    (s.filteredItems = [] → s.selectedIndex = 0) := by
  obtain ⟨h0, h1⟩ := h
  constructor
  · intro hne
    have hlen : 0 < s.filteredItems.length := List.length_pos.mpr hne
    have hmax : max ((s.filteredItems.length : Int) - 1) 0 = (s.filteredItems.length : Int) - 1 := by
      apply max_eq_left; omega
    rw [hmax] at h1
    exact ⟨h0, by omega⟩
  · intro hnil
    rw [hnil] at h1
    simp at h1
    omega

/-- C1: in every reachable session state the selection index satisfies
`0 ≤ index < len(filtered_items)` whenever the filtered list is non-empty
and `index = 0` whenever it is empty, and every recomputation
(`filter_items`) sets the index to
`min(previous_index, max(len(filtered_items) - 1, 0))`. -/
theorem c1_selection_index_invariant (p : String) (src : CandidateSource) (mr : Nat)
    (s : Session) (h : Reachable p src mr s) :
    ((s.filteredItems ≠ [] →
        0 ≤ s.selectedIndex ∧ s.selectedIndex < (s.filteredItems.length : Int)) ∧
     (s.filteredItems = [] → s.selectedIndex = 0)) ∧
    (filterItems s).selectedIndex =
      min s.selectedIndex (max (((computeFiltered s.source s.inputText).length : Int) - 1) 0) :=
  ⟨selInv_bounds (selInv_reachable h), rfl⟩

/-- Witness for C1 at the freshly constructed session over the sample
static choices. -/
theorem c1_selection_index_invariant_witness :
    ((sampleInit.filteredItems ≠ [] →
        0 ≤ sampleInit.selectedIndex ∧
        sampleInit.selectedIndex < (sampleInit.filteredItems.length : Int)) ∧
     (sampleInit.filteredItems = [] → sampleInit.selectedIndex = 0)) ∧
    (filterItems sampleInit).selectedIndex =
      min sampleInit.selectedIndex
        (max (((computeFiltered sampleInit.source sampleInit.inputText).length : Int) - 1) 0) :=
  c1_selection_index_invariant "> " sampleSource 6 sampleInit Reachable.init

/-- C10: in every reachable state with a non-empty filtered list the index
used by `filtered_items[selected_index]` — in the tab-accept path and in
the enter handler — is in bounds, the lookup yields an element of the
list, and so no operation can fail with an out-of-range index error. -/
theorem c10_indexing_safety (p : String) (src : CandidateSource) (mr : Nat)
    (s : Session) (h : Reachable p src mr s) (hne : s.filteredItems ≠ []) :
    0 ≤ s.selectedIndex ∧
    s.selectedIndex.toNat < s.filteredItems.length ∧
    s.filteredItems.get? s.selectedIndex.toNat =
      some (s.filteredItems.getD s.selectedIndex.toNat "") ∧
    (applyOp s .tabAccept).inputText = s.filteredItems.getD s.selectedIndex.toNat "" ∧
    (applyOp s .tabAccept).inputText ∈ s.filteredItems ∧
    (s.inputText = "" → enterResult s ∈ s.filteredItems) := by
  have hb := (selInv_bounds (selInv_reachable h)).1 hne
  have hlt : s.selectedIndex.toNat < s.filteredItems.length := by omega
  have hmem : s.filteredItems.getD s.selectedIndex.toNat "" ∈ s.filteredItems := by
    rw [List.getD_eq_getElem _ "" hlt]
    exact List.getElem_mem hlt
  have htab : (applyOp s .tabAccept).inputText
      = s.filteredItems.getD s.selectedIndex.toNat "" := by
    simp [applyOp, hne, acceptSelection, filterItems]
  refine ⟨hb.1, hlt, ?_, htab, ?_, ?_⟩
  · rw [List.getD_eq_getElem _ "" hlt, List.get?_eq_getElem?, List.getElem?_eq_getElem hlt]
  · rw [htab]; exact hmem
  · intro hemp
    simpa [enterResult, hemp, hne] using hmem

/-- Witness for C10 at a reachable state (one typed character) with a
non-empty filtered list. -/
theorem c10_indexing_safety_witness :
    0 ≤ sampleStep.selectedIndex ∧
    sampleStep.selectedIndex.toNat < sampleStep.filteredItems.length ∧
    sampleStep.filteredItems.get? sampleStep.selectedIndex.toNat =
      some (sampleStep.filteredItems.getD sampleStep.selectedIndex.toNat "") ∧
    (applyOp sampleStep .tabAccept).inputText
      = sampleStep.filteredItems.getD sampleStep.selectedIndex.toNat "" ∧
    (applyOp sampleStep .tabAccept).inputText ∈ sampleStep.filteredItems ∧
    (sampleStep.inputText = "" → enterResult sampleStep ∈ sampleStep.filteredItems) :=
  c10_indexing_safety "> " sampleSource 6 sampleStep
    (Reachable.step sampleInit (Op.appendChar 's') Reachable.init) (by decide)

/-- C2 (amended): whenever the configured `max_rows` is at least 1, the
rendered panel consists of exactly `max_rows + 2` display lines — titled
top border, `max_rows` content/placeholder rows (the no-results branch
spends one of them on its message row), bottom border — regardless of
whether there are 0, 1, fewer than `max_rows`, or more than `max_rows`
candidates.  (The buffer plays no role in `render_panel` itself.) -/
theorem c2_panel_height (s : Session) (h : 1 ≤ s.maxRows) :
    (renderPanel s).length = s.maxRows + 2 := by
  unfold renderPanel
  by_cases hf : s.filteredItems = []
  · simp only [if_pos hf, List.length_cons, List.length_append,
      List.length_replicate]
    simp
    omega
  · simp only [if_neg hf, List.length_cons, List.length_append,
      List.length_map, List.length_range]
    simp
    try omega

/-- Witness for C2 at a concrete reachable session with `max_rows = 6`. -/
theorem c2_panel_height_witness :
    (renderPanel sampleStep).length = sampleStep.maxRows + 2 :=
  c2_panel_height sampleStep (by decide)

/-- Counterexample to C2 as stated: with `max_rows = 0` and a non-empty
buffer matching nothing, the no-results branch still renders its message
row, so the panel has 3 display lines, not `max_rows + 2 = 2`. -/
theorem c2_panel_height_counterexample :
    c2ZeroRowsState.inputText = "x" ∧
    c2ZeroRowsState.maxRows = 0 ∧
    (renderPanel c2ZeroRowsState).length = 3 ∧
    (renderPanel c2ZeroRowsState).length ≠ c2ZeroRowsState.maxRows + 2 := by
  refine ⟨?_, ?_, ?_, ?_⟩ <;> decide

/-- C4 (amended): for every buffer that is empty or all-whitespace and for
both candidate-source variants, recomputation yields an empty candidate
list; the suggestion panel is omitted from the rendered content exactly
when the buffer is the empty string (a whitespace-only non-empty buffer
still renders a no-results panel). -/
theorem c4_empty_whitespace_policy (src : CandidateSource) (q : String) (s : Session)
    (hq : pyStrip q = "") (hs : s.inputText = "") :
    computeFiltered src q = [] ∧
    renderContent s =
      [("class:prompt", s.promptText), ("class:input", s.inputText),
       ("class:footer", "Tab: isi dari pilihan | Ctrl+C: batal")] := by
  constructor
  · simp [computeFiltered, hq]
  · simp [renderContent, hs]

/-- Witness for C4: an all-whitespace query over the sample static source,
and the freshly constructed (empty-buffer) sample session. -/
theorem c4_empty_whitespace_policy_witness :
    computeFiltered sampleSource "  " = [] ∧
    renderContent sampleInit =
      [("class:prompt", sampleInit.promptText), ("class:input", sampleInit.inputText),
       ("class:footer", "Tab: isi dari pilihan | Ctrl+C: batal")] :=
  c4_empty_whitespace_policy sampleSource "  " sampleInit (by decide) (by decide)

/-- Counterexample to C4 as stated: after typing a single space the buffer
is whitespace-only, the candidate list is empty, yet `render_content`
does render a suggestion panel (`if self.input_text:` tests emptiness,
not strippedness). -/
theorem c4_empty_whitespace_policy_counterexample :
    pyStrip whitespaceState.inputText = "" ∧
    whitespaceState.inputText ≠ "" ∧
    computeFiltered whitespaceState.source whitespaceState.inputText = [] ∧
    renderContent whitespaceState ≠
      [("class:prompt", whitespaceState.promptText),
       ("class:input", whitespaceState.inputText),
       ("class:footer", "Tab: isi dari pilihan | Ctrl+C: batal")] ∧
    (renderContent whitespaceState).length = 25 := by
  refine ⟨?_, ?_, ?_, ?_, ?_⟩ <;> decide

/-- C8: pressing enter terminates the session in the `Accepted` state
whose value is the buffer when the buffer is non-empty, else the
highlighted candidate when the filtered list is non-empty, else the empty
string. -/
theorem c8_enter_semantics (s : Session) :
    (s.inputText ≠ "" → enterOutcome s = .accepted s.inputText) ∧
    (s.inputText = "" → s.filteredItems ≠ [] →
      enterOutcome s = .accepted (s.filteredItems.getD s.selectedIndex.toNat "")) ∧
    (s.inputText = "" → s.filteredItems = [] → enterOutcome s = .accepted "") := by
  refine ⟨?_, ?_, ?_⟩
  · intro h
    simp [enterOutcome, enterResult, h]
  · intro h1 h2
    simp [enterOutcome, enterResult, h1, h2]
  · intro h1 h2
    simp [enterOutcome, enterResult, h1, h2]

/-- Witness for C8: a non-empty buffer accepts the buffer; an empty buffer
with an empty list accepts the empty string. -/
theorem c8_enter_semantics_witness :
    enterOutcome sampleStep = Outcome.accepted sampleStep.inputText ∧
    enterOutcome sampleInit = Outcome.accepted "" :=
  ⟨(c8_enter_semantics sampleStep).1 (by decide),
   (c8_enter_semantics sampleInit).2.2 (by decide) (by decide)⟩

theorem strLength_eq_zero {s : String} (h : s.length = 0) : s = "" := by
  cases s with
  | mk data =>
      simp only [String.length] at h
      have hd : data = [] := List.length_eq_zero.mp h
      simp [hd]

theorem pyTruncate_length_le (text : String) (width : Int) (h : 0 ≤ width) :
    ((pyTruncate text width).length : Int) ≤ width := by
  by_cases h0 : width ≤ 0
  · simp [pyTruncate, h0]
    omega
  · by_cases h1 : (text.length : Int) ≤ width
    · simp [pyTruncate, h0, h1]
    · by_cases h2 : width = 1
      · subst h2
        rw [show pyTruncate text 1 = "…" by norm_num [pyTruncate, h1]]
        decide
      · simp only [pyTruncate, if_neg h0, if_neg h1, if_neg h2]
        rw [String.length_append]
        have ht : (String.mk (text.data.take (width.toNat - 1))).length
            = min (width.toNat - 1) text.data.length := by
          simp only [String.length]
          exact List.length_take _ _
        have he : ("…" : String).length = 1 := by decide
        have hd : text.data.length = text.length := rfl
        rw [ht, he]
        omega

theorem pyTruncate_of_fits (text : String) (width : Int)
    (h : (text.length : Int) ≤ width) : pyTruncate text width = text := by
  by_cases h0 : width ≤ 0
  · have hlen : text.length = 0 := by omega
    rw [strLength_eq_zero hlen]
    simp [pyTruncate, h0]
  · simp [pyTruncate, h0, h]

/-- C5: the truncation contract of `_truncate`: for width ≥ 0 the result
length never exceeds the width; text that fits is returned unchanged;
width ≤ 0 yields the empty string; width = 1 with text that does not fit
yields exactly one ellipsis character; otherwise the first `width - 1`
characters followed by one ellipsis character. -/
theorem c5_truncation_contract (text : String) (width : Int) :
    (0 ≤ width → ((pyTruncate text width).length : Int) ≤ width) ∧
    ((text.length : Int) ≤ width → pyTruncate text width = text) ∧
    (width ≤ 0 → pyTruncate text width = "") ∧
    (width = 1 → 1 < text.length → pyTruncate text width = "…") ∧
    (2 ≤ width → width < (text.length : Int) →
      pyTruncate text width = String.mk (text.data.take (width.toNat - 1)) ++ "…") := by
  refine ⟨pyTruncate_length_le text width, pyTruncate_of_fits text width, ?_, ?_, ?_⟩
  · intro h0
    simp [pyTruncate, h0]
  · intro h2 hbig
    subst h2
    have h1 : ¬ ((text.length : Int) ≤ 1) := by exact_mod_cast not_le.mpr (by exact_mod_cast hbig)
    norm_num [pyTruncate, h1]
  · intro h2 hbig
    have h0 : ¬ (width ≤ 0) := by omega
    have h1 : ¬ ((text.length : Int) ≤ width) := by omega
    have hne : width ≠ 1 := by omega
    simp [pyTruncate, h0, h1, hne]

/-- Witness for C5 at text `"abcdef"` and width 3: result `"ab…"` of
length 3, and the other branches at fitting/zero/one widths. -/
theorem c5_truncation_contract_witness :
    ((pyTruncate "abcdef" 3).length : Int) ≤ 3 ∧
    pyTruncate "abcdef" 3 = String.mk (("abcdef" : String).data.take ((3 : Int).toNat - 1)) ++ "…" ∧
    pyTruncate "abcdef" 6 = "abcdef" ∧
    pyTruncate "abcdef" 0 = "" ∧
    pyTruncate "abcdef" 1 = "…" :=
  ⟨(c5_truncation_contract "abcdef" 3).1 (by decide),
   (c5_truncation_contract "abcdef" 3).2.2.2.2 (by decide) (by decide),
   (c5_truncation_contract "abcdef" 6).2.1 (by decide),
   (c5_truncation_contract "abcdef" 0).2.2.1 (by decide),
   (c5_truncation_contract "abcdef" 1).2.2.2.1 (by decide) (by decide)⟩

theorem rpartitionSpace_none : ∀ (cs : List Char), rpartitionSpace cs = none → ' ' ∉ cs := by
  intro cs
  induction cs with
  | nil => intro _ hmem; simp at hmem
  | cons c cs ih =>
      intro h hmem
      simp only [rpartitionSpace] at h
      cases hr : rpartitionSpace cs with
      | some p =>
          obtain ⟨a, b⟩ := p
          rw [hr] at h
          simp at h
      | none =>
          rw [hr] at h
          by_cases hc : c = ' '
          · simp [hc] at h
          · rcases List.mem_cons.mp hmem with h1 | h1
            · exact hc h1.symm
            · exact ih hr h1

theorem rpartitionSpace_some : ∀ (cs h t : List Char),
    rpartitionSpace cs = some (h, t) → cs = h ++ ' ' :: t ∧ ' ' ∉ t := by
  intro cs
  induction cs with
  | nil => intro h t hc; simp [rpartitionSpace] at hc
  | cons c cs ih =>
      intro h t hc
      simp only [rpartitionSpace] at hc
      cases hr : rpartitionSpace cs with
      | some p =>
          obtain ⟨a, b⟩ := p
          rw [hr] at hc
          simp only [Option.some.injEq, Prod.mk.injEq] at hc
          obtain ⟨h1, h2⟩ := hc
          obtain ⟨ha, hb⟩ := ih a b hr
          subst h1; subst h2
          exact ⟨by rw [ha]; rfl, hb⟩
      | none =>
          rw [hr] at hc
          by_cases hcs : c = ' '
          · subst hcs
            simp only [beq_self_eq_true, if_pos, Option.some.injEq, Prod.mk.injEq] at hc
            obtain ⟨h1, h2⟩ := hc
            subst h1; subst h2
            exact ⟨rfl, rpartitionSpace_none _ hr⟩
          · simp [hcs] at hc

theorem charMem_of_getLast {l : List Char} {a : Char} (h : l.getLast? = some a) : a ∈ l := by
  obtain ⟨hne, heq⟩ := List.mem_getLast?_eq_getLast (by rw [h]; rfl)
  rw [heq]
  exact List.getLast_mem hne

/-- C6: the query-splitter contract: empty input yields `("", "")`; input
ending in a space yields `(text, "")`; otherwise the split is at the last
space — the fragment holds no space, the lead is empty or ends in the
space — so the lead is everything up to and including the last space
(empty when no space occurs) and the fragment is the remainder; plus the
four concrete examples of the spec. -/
theorem c6_query_splitter_contract (text : String) :
    splitCompletionQuery "" = ("", "") ∧
    (splitCompletionQuery text).1 ++ (splitCompletionQuery text).2 = text ∧
    ' ' ∉ (splitCompletionQuery text).2.data ∧
    ((splitCompletionQuery text).1 = "" ∨
      (splitCompletionQuery text).1.data.getLast? = some ' ') ∧
    (text.data.getLast? = some ' ' → splitCompletionQuery text = (text, "")) ∧
    (' ' ∉ text.data → splitCompletionQuery text = ("", text)) ∧
    splitCompletionQuery "foo " = ("foo ", "") ∧
    splitCompletionQuery "foo bar" = ("foo ", "bar") ∧
    splitCompletionQuery "foo" = ("", "foo") := by
  by_cases he : text = ""
  · subst he
    decide
  · by_cases hl : text.data.getLast? = some ' '
    · have hs : splitCompletionQuery text = (text, "") := by
        unfold splitCompletionQuery
        rw [if_neg he, if_pos hl]
      refine ⟨by decide, ?_, ?_, ?_, fun _ => hs, ?_, by decide, by decide, by decide⟩
      · rw [hs]
        exact String.append_empty text
      · rw [hs]
        simp
      · right
        rw [hs]
        exact hl
      · intro hnm
        exact absurd (charMem_of_getLast hl) hnm
    · cases hr : rpartitionSpace text.data with
      | some p =>
          obtain ⟨h, t⟩ := p
          obtain ⟨hcat, hnt⟩ := rpartitionSpace_some _ _ _ hr
          have hs : splitCompletionQuery text = (String.mk (h ++ [' ']), String.mk t) := by
            unfold splitCompletionQuery
            rw [if_neg he, if_neg hl, hr]
          refine ⟨by decide, ?_, ?_, ?_, fun hc => absurd hc hl, ?_, by decide, by decide,
            by decide⟩
          · rw [hs]
            show String.mk (h ++ [' ']) ++ String.mk t = text
            have hassoc : (h ++ [' ']) ++ t = h ++ ' ' :: t := by simp
            calc String.mk (h ++ [' ']) ++ String.mk t
                = String.mk ((h ++ [' ']) ++ t) := rfl
              _ = String.mk (h ++ ' ' :: t) := by rw [hassoc]
              _ = String.mk text.data := by rw [hcat]
              _ = text := rfl
          · rw [hs]
            exact hnt
          · right
            rw [hs]
            exact List.getLast?_concat h
          · intro hnm
            exact absurd (by rw [hcat]; simp : ' ' ∈ text.data) hnm
      | none =>
          have hnm : ' ' ∉ text.data := rpartitionSpace_none _ hr
          have hs : splitCompletionQuery text = ("", text) := by
            unfold splitCompletionQuery
            rw [if_neg he, if_neg hl, hr]
          refine ⟨by decide, ?_, ?_, ?_, fun hc => absurd hc hl, fun _ => hs, by decide,
            by decide, by decide⟩
          · rw [hs]
            exact String.empty_append text
          · rw [hs]
            exact hnm
          · left
            rw [hs]

/-- Witness for C6: the ends-in-space and no-space implications discharged
at the spec's concrete inputs. -/
theorem c6_query_splitter_contract_witness :
    splitCompletionQuery "foo " = ("foo ", "") ∧
    splitCompletionQuery "foo" = ("", "foo") :=
  ⟨(c6_query_splitter_contract "foo ").2.2.2.2.1 (by decide),
   (c6_query_splitter_contract "foo").2.2.2.2.2.1 (by decide)⟩

theorem matchesAt_iff : ∀ (n h : List Char), matchesAt n h = true ↔ ∃ r, h = n ++ r := by
  intro n
  induction n with
  | nil => intro h; simp [matchesAt]
  | cons a as ih =>
      intro h
      cases h with
      | nil => simp [matchesAt]
      | cons b bs =>
          simp only [matchesAt, Bool.and_eq_true, beq_iff_eq, ih]
          constructor
          · rintro ⟨hab, r, hr⟩
            subst hab
            exact ⟨r, by rw [hr, List.cons_append]⟩
          · rintro ⟨r, hr⟩
            rw [List.cons_append] at hr
            injection hr with h1 h2
            exact ⟨h1.symm, r, h2⟩

theorem findSub_iff : ∀ (n h : List Char), findSub n h = true ↔ ∃ l r, h = l ++ n ++ r := by
  intro n h
  induction h with
  | nil =>
      simp only [findSub, matchesAt_iff]
      constructor
      · rintro ⟨r, hr⟩
        exact ⟨[], r, by simpa using hr⟩
      · rintro ⟨l, r, hr⟩
        refine ⟨r, ?_⟩
        cases l with
        | nil => simpa using hr
        | cons x xs => simp at hr
  | cons b bs ih =>
      simp only [findSub, Bool.or_eq_true, matchesAt_iff, ih]
      constructor
      · rintro (⟨r, hr⟩ | ⟨l, r, hr⟩)
        · exact ⟨[], r, by simpa using hr⟩
        · exact ⟨b :: l, r, by simp [hr]⟩
      · rintro ⟨l, r, hr⟩
        cases l with
        | nil => exact Or.inl ⟨r, by simpa using hr⟩
        | cons x xs =>
            right
            rw [List.cons_append, List.cons_append] at hr
            injection hr with h1 h2
            exact ⟨xs, r, h2⟩

/-- Correctness of the Python `in` model: `needle in hay` holds exactly
when the character list of `hay` decomposes around that of `needle`. -/
theorem strContains_iff (hay needle : String) :
    strContains hay needle = true ↔ ∃ l r, hay.data = l ++ needle.data ++ r := by
  unfold strContains
  exact findSub_iff _ _

theorem strContains_self (s : String) : strContains s s = true := by
  rw [strContains_iff]
  exact ⟨[], [], by simp⟩

theorem count_filter_eq_single (p : String → Bool) (c : String) :
    ∀ (l : List String), p c = true → l.count c = 1 →
      (∀ x ∈ l, p x = true → x = c) → l.filter p = [c] := by
  intro l
  induction l with
  | nil => intro _ hcount _; simp at hcount
  | cons x xs ih =>
      intro hp hcount honly
      by_cases hx : p x
      · have hxc : x = c := honly x (List.mem_cons_self x xs) hx
        subst hxc
        have hc0 : xs.count x = 0 := by
          have := List.count_cons_self x xs
          omega
        have hnotin : x ∉ xs := List.count_eq_zero.mp hc0
        have hfil : xs.filter p = [] := by
          rw [List.filter_eq_nil_iff]
          intro a ha hpa
          exact hnotin ((honly a (List.mem_cons_of_mem x ha) hpa) ▸ ha)
        rw [List.filter_cons_of_pos hx, hfil]
      · have hxc : x ≠ c := fun hxc => hx (hxc ▸ hp)
        have hcount' : xs.count c = 1 := by
          rw [List.count_cons_of_ne (fun hcx => hxc hcx.symm)] at hcount
          exact hcount
        rw [List.filter_cons_of_neg hx]
        exact ih hp hcount' (fun y hy hpy => honly y (List.mem_cons_of_mem x hy) hpy)

/-- C7: for a static choice list and a buffer with non-empty strip, the
filtered list is exactly the choices containing the raw (unsplit) buffer
as a case-insensitive substring, in source order (`List.filter` preserves
the relative order); `strContains` is characterised as genuine substring
containment; and the spec's concrete example holds. -/
theorem c7_static_filter (choices : List String) (q : String) (hq : pyStrip q ≠ "") :
    computeFiltered (CandidateSource.staticChoices (some choices)) q
      = choices.filter (fun item => strContains (pyLower item) (pyLower q)) ∧
    (∀ item : String, strContains (pyLower item) (pyLower q) = true ↔
      ∃ l r, (pyLower item).data = l ++ (pyLower q).data ++ r) ∧
    computeFiltered (CandidateSource.staticChoices
        (some ["com.whatsapp", "com.spotify.music"])) "spot"
      = ["com.spotify.music"] := by
  refine ⟨?_, fun item => strContains_iff _ _, by decide⟩
  simp [computeFiltered, hq]

/-- Witness for C7 at the sample choices and buffer `"spot"`. -/
theorem c7_static_filter_witness :
    computeFiltered (CandidateSource.staticChoices (some sampleChoices)) "spot"
      = sampleChoices.filter (fun item => strContains (pyLower item) (pyLower "spot")) ∧
    (strContains (pyLower "com.spotify.music") (pyLower "spot") = true ↔
      ∃ l r, (pyLower "com.spotify.music").data = l ++ (pyLower "spot").data ++ r) :=
  ⟨(c7_static_filter sampleChoices "spot" (by decide)).1,
   (c7_static_filter sampleChoices "spot" (by decide)).2.1 "com.spotify.music"⟩

/-- C3 (amended): when a candidate is highlighted (non-empty filtered
list, index clamped non-negative as every reachable state has it) and tab
is pressed, the buffer is replaced by that candidate; provided the
candidate is not whitespace-only (guaranteed for highlighted candidates of
the static variant), occurs exactly once in the choice list, and no other
choice contains it as a case-insensitive substring, the immediately
following recomputation yields exactly that candidate (list length 1,
index 0).  Without the two uniqueness provisos the recomputation keeps
every choice containing the accepted candidate — see the counterexample. -/
theorem c3_tab_narrowing (s : Session) (choices : List String)
    (hsrc : s.source = CandidateSource.staticChoices (some choices))
    (hne : s.filteredItems ≠ [])
    (hidx : 0 ≤ s.selectedIndex)
    (hstrip : pyStrip (s.filteredItems.getD s.selectedIndex.toNat "") ≠ "")
    (hcount : choices.count (s.filteredItems.getD s.selectedIndex.toNat "") = 1)
    (honly : ∀ item ∈ choices,
        strContains (pyLower item)
          (pyLower (s.filteredItems.getD s.selectedIndex.toNat "")) = true →
        item = s.filteredItems.getD s.selectedIndex.toNat "") :
    (applyOp s .tabAccept).inputText = s.filteredItems.getD s.selectedIndex.toNat "" ∧
    (applyOp s .tabAccept).filteredItems = [s.filteredItems.getD s.selectedIndex.toNat ""] ∧
    (applyOp s .tabAccept).selectedIndex = 0 := by
  have hstep : applyOp s .tabAccept
      = filterItems { s with inputText := s.filteredItems.getD s.selectedIndex.toNat "" } := by
    simp [applyOp, hne, acceptSelection]
  have hcomp : computeFiltered s.source (s.filteredItems.getD s.selectedIndex.toNat "")
      = [s.filteredItems.getD s.selectedIndex.toNat ""] := by
    rw [hsrc]
    unfold computeFiltered
    rw [if_neg hstrip]
    exact count_filter_eq_single _ _ choices (strContains_self _) hcount honly
  refine ⟨?_, ?_, ?_⟩
  · rw [hstep]
    rfl
  · rw [hstep]
    show computeFiltered s.source (s.filteredItems.getD s.selectedIndex.toNat "")
      = [s.filteredItems.getD s.selectedIndex.toNat ""]
    exact hcomp
  · rw [hstep]
    show min s.selectedIndex
        (max (((computeFiltered s.source
          (s.filteredItems.getD s.selectedIndex.toNat "")).length : Int) - 1) 0) = 0
    rw [hcomp]
    simp
    omega

/-- Witness for C3: accepting `"com.spotify.music"` from `tabSession`
narrows the list to exactly that candidate with index 0. -/
theorem c3_tab_narrowing_witness :
    (applyOp tabSession .tabAccept).inputText
      = tabSession.filteredItems.getD tabSession.selectedIndex.toNat "" ∧
    (applyOp tabSession .tabAccept).filteredItems
      = [tabSession.filteredItems.getD tabSession.selectedIndex.toNat ""] ∧
    (applyOp tabSession .tabAccept).selectedIndex = 0 :=
  c3_tab_narrowing tabSession sampleChoices rfl (by decide) (by decide) (by decide)
    (by decide) (by decide)

/-- Counterexample to C3 as stated: with choices `["a", "aa"]` and buffer
`"a"`, the highlighted candidate is `"a"`; tab replaces the buffer with it,
but the following recomputation yields `["a", "aa"]` (both choices contain
`"a"`), not a singleton. -/
theorem c3_tab_narrowing_counterexample :
    (applyOp (initSession "> " (CandidateSource.staticChoices (some ["a", "aa"])) 6)
        (Op.appendChar 'a')).filteredItems = ["a", "aa"] ∧
    (applyOp (initSession "> " (CandidateSource.staticChoices (some ["a", "aa"])) 6)
        (Op.appendChar 'a')).selectedIndex = 0 ∧
    tabAmbiguous.inputText = "a" ∧
    tabAmbiguous.filteredItems = ["a", "aa"] ∧
    tabAmbiguous.filteredItems.length ≠ 1 := by
  refine ⟨?_, ?_, ?_, ?_, ?_⟩ <;> decide

/-- C9 (amended): a completer that raises (models `except Exception`) is
caught by `filter_items` and yields an empty candidate list; a launch
failure of the subprocess (`FileNotFoundError`) makes `bash_completer`
return the empty list; and since `check=False` is passed, a non-zero exit
status never raises — `bash_completer` simply parses whatever is on stdout
(the exit code is ignored), which is empty exactly when the failed process
produced no output.  In the embedding all of these are total functions, so
no error propagates out of the candidate-source boundary. -/
theorem c9_external_failure_degradation (f : String → Except Unit (List String))
    (run : String → Except Unit CompletedProcess) (q : String) (rc : Int) :
    (f q = Except.error () → computeFiltered (.externalCompleter f) q = []) ∧
    (run (splitCompletionQuery q).2 = Except.error () → bashCompleter run q = []) ∧
    (run (splitCompletionQuery q).2 = Except.ok ⟨rc, ""⟩ → bashCompleter run q = []) := by
  refine ⟨?_, ?_, ?_⟩
  · intro hf
    by_cases hq : pyStrip q = ""
    · simp [computeFiltered, hq]
    · simp [computeFiltered, hq, hf]
  · intro hrun
    unfold bashCompleter
    rw [hrun]
  · intro hrun
    unfold bashCompleter
    rw [hrun]
    rfl

/-- Witness for C9: a raising completer, a failing launch, and a silently
failing process (exit status 3, empty stdout) all yield no candidates. -/
theorem c9_external_failure_degradation_witness :
    computeFiltered (.externalCompleter (fun _ => Except.error ())) "a" = [] ∧
    bashCompleter (fun _ => Except.error ()) "a" = [] ∧
    bashCompleter (fun _ => Except.ok ⟨3, ""⟩) "a" = [] :=
  ⟨(c9_external_failure_degradation (fun _ => Except.error ())
      (fun _ => Except.error ()) "a" 3).1 rfl,
   (c9_external_failure_degradation (fun _ => Except.error ())
      (fun _ => Except.error ()) "a" 3).2.1 rfl,
   (c9_external_failure_degradation (fun _ => Except.error ())
      (fun _ => Except.ok ⟨3, ""⟩) "a" 3).2.2 rfl⟩

/-- Counterexample to C9 as stated: a process exiting with non-zero status
1 that still printed `"hello"` on stdout does not yield an empty candidate
list — `bash_completer` passes `check=False` and never inspects the exit
status, so the recomputation returns `["hello"]`. -/
theorem c9_external_failure_degradation_counterexample :
    (1 : Int) ≠ 0 ∧
    bashCompleter (fun _ => Except.ok ⟨1, "hello"⟩) "x" = ["hello"] ∧
    computeFiltered (.externalCompleter
        (fun q => Except.ok (bashCompleter (fun _ => Except.ok ⟨1, "hello"⟩) q))) "x"
      = ["hello"] :=
  ⟨by decide, rfl, rfl⟩
